import Mathlib

/-!
Verification of the docu-vision browser client.

The repository holds two variants of the client script: `src/app.js` and the
second, unnamed script (`src/unnamed/part_000`), together with the page markup
`index.html` (embedded at the end of the `app.js` source file).  Both variants
are embedded shallowly below: JavaScript values are modelled by `JsVal`, DOM
containers by lists of node records, and the event handlers by pure functions
from client state to client state plus a list of observable effects (alerts,
HTTP requests, file downloads).
-/

/-- Model of a JavaScript value as delivered by `response.json()` or read off
a property.  `undef` models the JavaScript value `undefined`. -/
inductive JsVal where
  | undef
  | null
  | bool (b : Bool)
  | num (n : Int)
  | str (s : String)
  | arr (elems : List JsVal)
  | obj (fields : List (String × JsVal))

/-- Property lookup `v[k]`: on an object it returns the field (or `undefined`
when absent); on every other value the model returns `undefined`.  The call
sites where JavaScript would instead throw (property access on `null` or
`undefined`) test for nullish receivers explicitly before using `getF`. -/
def getF : JsVal → String → JsVal
  | JsVal.obj fs, k =>
      match fs.lookup k with
      | some v => v
      | none => JsVal.undef
  | _, _ => JsVal.undef

/-- JavaScript truthiness, as used by `if (data.error)`. -/
def truthy : JsVal → Bool
  | JsVal.undef => false
  | JsVal.null => false
  | JsVal.bool b => b
  | JsVal.num n => decide (n ≠ 0)
  | JsVal.str s => decide (s ≠ "")
  | JsVal.arr _ => true
  | JsVal.obj _ => true

/-- A value on which property access does not throw (not `null`/`undefined`). -/
def notNullish : JsVal → Bool
  | JsVal.null => false
  | JsVal.undef => false
  | _ => true

/-- `Array.isArray`. -/
def isArr : JsVal → Bool
  | JsVal.arr _ => true
  | _ => false

/-- Every element of the list is a non-nullish value, so that a `forEach`
body reading properties of the elements runs to completion. -/
def goodElems (xs : List JsVal) : Bool := xs.all notNullish

/- Decimal printing and `parseInt`, needed for the frames-per-second
validation (`validateFramesPerSecond` in the unnamed script). -/

/-- The decimal digit character for `d` (defined for `d < 10`). -/
def digitChar : Nat → Char
  | 0 => '0'
  | 1 => '1'
  | 2 => '2'
  | 3 => '3'
  | 4 => '4'
  | 5 => '5'
  | 6 => '6'
  | 7 => '7'
  | 8 => '8'
  | _ => '9'

/-- `48 ≤ c ≤ 57`, the digit test used by the `parseInt` model. -/
def isDigitChar (c : Char) : Bool := 48 ≤ c.toNat && c.toNat ≤ 57

/-- Numeric value of a digit character. -/
def digitVal (c : Char) : Nat := c.toNat - 48

/-- Accumulating decimal parse of a maximal leading run of digit characters,
as `parseInt` does after the optional sign. -/
def parseDigitsAux : Nat → List Char → Nat
  | acc, [] => acc
  | acc, c :: cs =>
      if isDigitChar c = true then parseDigitsAux (10 * acc + digitVal c) cs else acc

/-- The list starts with a digit, i.e. `parseInt` does not return `NaN`. -/
def digitsLead : List Char → Bool
  | [] => false
  | c :: _ => isDigitChar c

/-- Model of JavaScript `parseInt(s)` (radix 10): skip leading spaces, accept
an optional sign, then parse the maximal leading digit run; `none` models
`NaN`. -/
def jsParseInt (s : String) : Option Int :=
  match s.data.dropWhile (fun c => c == ' ') with
  | [] => none
  | c :: rest =>
      if c = '-' then
        if digitsLead rest = true then some (-(parseDigitsAux 0 rest : Int)) else none
      else if c = '+' then
        if digitsLead rest = true then some ((parseDigitsAux 0 rest : Int)) else none
      else if isDigitChar c = true then some ((parseDigitsAux 0 (c :: rest) : Int)) else none

/-- Decimal digit characters of `n`, most significant first; the first
argument is structural fuel (`n + 1` always suffices). -/
def natDecCharsF : Nat → Nat → List Char
  | 0, _ => []
  | f + 1, n =>
      if n < 10 then [digitChar n]
      else natDecCharsF f (n / 10) ++ [digitChar (n % 10)]

/-- Decimal representation of a natural number. -/
def natDecRepr (n : Nat) : String := String.mk (natDecCharsF (n + 1) n)

/-- Decimal representation of an integer, the form in which an integer value
sits in the frames-per-second input control. -/
def intDecRepr (v : Int) : String :=
  match v with
  | Int.ofNat m => natDecRepr m
  | Int.negSucc m => String.mk ('-' :: natDecCharsF (m + 2) (m + 1))

/-- The custom validity message used by `validateFramesPerSecond`. -/
def fpsErrorMsg : String := "Please enter a number between 1 and 30"

/-- `validateFramesPerSecond` from the unnamed script: parse the control value
with `parseInt` and set the custom validity message to `fpsErrorMsg` when the
parse fails or the value is outside `[1, 30]`, and to the empty string (valid)
otherwise.  The returned string is the custom validity message. -/
def validateFramesPerSecond (s : String) : String :=
  match jsParseInt s with
  | none => fpsErrorMsg
  | some v => if v < 1 ∨ v > 30 then fpsErrorMsg else ""

/-- The control reports a valid state: the custom validity message is empty. -/
def framesPerSecondAccepted (s : String) : Bool := validateFramesPerSecond s == ""

/- String coercion of JavaScript values (template literals, `alert(data.error)`,
`textContent` assignment).  Structural fuel makes the definition reduce by
`rfl` on concrete values; the fixed fuel bounds the nesting depth of arrays,
far beyond anything the client ever receives. -/

/-- Fueled JavaScript ToString. Arrays join their elements with commas, with
nullish elements contributing the empty string, as `Array.prototype.toString`
does. -/
def jsToStringF : Nat → JsVal → String
  | 0, _ => ""
  | _ + 1, JsVal.undef => "undefined"
  | _ + 1, JsVal.null => "null"
  | _ + 1, JsVal.bool b => if b then "true" else "false"
  | _ + 1, JsVal.num n => intDecRepr n
  | _ + 1, JsVal.str s => s
  | f + 1, JsVal.arr xs =>
      String.intercalate ","
        (xs.map (fun e => if notNullish e = true then jsToStringF f e else ""))
  | _ + 1, JsVal.obj _ => "[object Object]"

/-- JavaScript ToString of a value. -/
def jsToString (v : JsVal) : String := jsToStringF 1000 v

/- Shared data model: media chunks, blobs, form payloads, effects. -/

/-- A binary media chunk delivered by the `MediaRecorder` `dataavailable`
event; `bytes` is its payload. -/
structure Chunk where
  bytes : List Nat
deriving DecidableEq, Repr

/-- A binary blob: the concatenated parts and the MIME type passed to the
`Blob` constructor. -/
structure Blob where
  parts : List Chunk
  mime : String
deriving DecidableEq, Repr

/-- A `File`: a blob together with its file name. -/
structure NamedFile where
  blob : Blob
  name : String
deriving DecidableEq, Repr

/-- The multipart form built for `POST /process_video`: the video payload with
the filename used in `append`, the `frames_per_second` field (a string), and
the optional `is_uploaded_video` flag (absent in the unnamed script variant). -/
structure FormData where
  video : Option (Blob × String)
  frames_per_second : String
  is_uploaded_video : Option Bool
deriving DecidableEq, Repr

/-- Observable effects of a handler: blocking alerts, HTTP POSTs (the body is
`none` for the bodyless `/generate_documentation` call), and client-side file
downloads. -/
inductive Effect where
  | alert (msg : String)
  | httpPost (url : String) (form : Option FormData)
  | download (filename : String) (content : String) (mime : String)
deriving DecidableEq, Repr

/-- An HTTP response as seen by the handlers: `ok` and `status` from the
`Response` object, and `jsonBody` the parsed JSON body (`none` when
`response.json()` rejects because the body is not valid JSON). -/
structure HttpResponse where
  ok : Bool
  status : Nat
  jsonBody : Option JsVal

/-- An `img` node appended to `gridContainer` by `displayGrids` (app.js). -/
structure GridNode where
  src : String
  alt : String
deriving Repr

/-- A `div.frame-item` appended to `gridContainer` by `displayProcessedFrames`
(unnamed script): image source and the `Frame N` caption text. -/
structure FrameNode where
  src : String
  label : String
deriving Repr

/-- A child of the `results` container written by `displayResults` (app.js):
either the no-results paragraph or one grid-plus-documentation block. -/
inductive ResultNode where
  | msg (text : String)
  | item (src : String) (alt : String) (docText : String)
deriving Repr

/-- Content of the `documentationOutput` region of the unnamed script:
untouched, the `Generating documentation...` placeholder, an inline error
message (the text after the `An error occurred while generating
documentation:` prefix), or Markdown rendered through `marked.parse`. -/
inductive OutputContent where
  | empty
  | generating
  | errorText (msg : String)
  | rendered (markdown : String)
deriving Repr

/-- Provenance of the current video blob (ghost state used to phrase the
`is_uploaded_video` invariant). -/
inductive Source where
  | uploaded
  | recorded
deriving DecidableEq, Repr

/-- Message text of the model for a `response.json()` rejection on a body that
is not valid JSON. -/
def jsonParseErrorMsg : String := "Unexpected end of JSON input"

namespace App

/-- Client state of the `src/app.js` variant: the module-level variables
(`recordedChunks`, `videoBlob`, `isUploadedVideo`, the recorder), the enabled
state of the four buttons, and the DOM containers the script writes.
`blobSource` is ghost provenance for `videoBlob`; `processedOk` is ghost state
recording that a successful `/process_video` response has been handled. -/
structure State where
  recordedChunks : List Chunk := []
  videoBlob : Option Blob := none
  blobSource : Option Source := none
  isUploadedVideo : Bool := false
  recorderActive : Bool := false
  fpsValue : String := "4"
  startEnabled : Bool := true
  stopEnabled : Bool := false
  processEnabled : Bool := false
  docEnabled : Bool := false
  processedOk : Bool := false
  gridContainer : List GridNode := []
  resultsContainer : List ResultNode := []
  finalSummary : Option String := none

/-- Modelled from the spec: the page markup of the app.js variant is not part
of the provided source (the `index.html` in the source belongs to the unnamed
script variant), so the initial control states follow the spec: start enabled,
stop disabled, and processing/documentation affordances unavailable until a
video exists resp. a successful processing response arrives. The module
variable initialisers (`recordedChunks = []`, `videoBlob = null`,
`isUploadedVideo = false`) are from `src/app.js` itself. -/
def initState : State := {}

/-- `mediaRecorder.onstart` together with a successful `startRecording` call:
previous chunks are cleared, `isUploadedVideo` is reset, start is disabled and
stop enabled. A click on a disabled button is a no-op. -/
def startRecording (st : State) : State × List Effect :=
  if st.startEnabled = true then
    ({ st with recorderActive := true, recordedChunks := [],
               isUploadedVideo := false,
               startEnabled := false, stopEnabled := true }, [])
  else (st, [])

/-- `stopRecording` plus the `mediaRecorder.onstop` handler it triggers:
no-op unless a recorder is active; otherwise the chunks are finalised into a
`video/webm` blob, the process button is enabled and the start/stop buttons
flip. Note the chunk buffer is NOT cleared here (app.js clears it in
`onstart`). -/
def stopRecording (st : State) : State × List Effect :=
  if st.recorderActive = true then
    ({ st with recorderActive := false,
               startEnabled := true, stopEnabled := false,
               videoBlob := some ⟨st.recordedChunks, "video/webm"⟩,
               blobSource := some Source.recorded,
               processEnabled := true }, [])
  else (st, [])

/-- `mediaRecorder.ondataavailable`: push the chunk when its size is
positive. -/
def dataAvailable (st : State) (c : Chunk) : State :=
  if st.recorderActive = true ∧ c.bytes ≠ [] then
    { st with recordedChunks := st.recordedChunks ++ [c] }
  else st

/-- `handleVideoUpload`: when a file was selected, store it as the current
video blob, mark the source as uploaded and enable processing. -/
def handleVideoUpload (st : State) (f : Option NamedFile) : State × List Effect :=
  match f with
  | none => (st, [])
  | some nf =>
      ({ st with videoBlob := some nf.blob,
                 blobSource := some Source.uploaded,
                 isUploadedVideo := true,
                 processEnabled := true }, [])

/-- The request phase of `processVideo`: without a video blob it alerts and
returns (no request, no state change); otherwise it posts the multipart form
with the blob under filename `video.webm`, the `frames_per_second` value
(defaulting to 4 when the input is empty) and the `is_uploaded_video` flag. -/
def processVideo (st : State) : State × List Effect :=
  match st.videoBlob with
  | none => (st, [Effect.alert "Please record or upload a video before processing."])
  | some b =>
      (st, [Effect.httpPost "/process_video"
        (some { video := some (b, "video.webm"),
                frames_per_second := if st.fpsValue = "" then "4" else st.fpsValue,
                is_uploaded_video := some st.isUploadedVideo })])

/-- The alert shown by the `catch` block of `processVideo`. -/
def processErrorAlert : Effect :=
  Effect.alert "Error processing video. Please check the console for details."

/-- One `img` element built by `displayGrids` for element `g` at index `i`. -/
def renderGrid (i : Nat) (g : JsVal) : GridNode :=
  { src := "data:image/jpeg;base64," ++ jsToString (getF g "image"),
    alt := "Grid " ++ toString (i + 1) }

/-- The `forEach` body of `displayGrids`: render elements in order, stopping
with a thrown `TypeError` (second component `false`) at the first nullish
element, whose property access would throw. -/
def renderGridElems : Nat → List JsVal → List GridNode × Bool
  | _, [] => ([], true)
  | i, g :: gs =>
      if notNullish g = true then
        let p := renderGridElems (i + 1) gs
        (renderGrid i g :: p.1, p.2)
      else ([], false)

/-- `displayGrids`: clear `gridContainer` then append one image per element of
the response value. A non-array value makes `forEach` throw after the
container was already cleared (second component `false`). -/
def displayGrids (v : JsVal) : List GridNode × Bool :=
  match v with
  | JsVal.arr xs => renderGridElems 0 xs
  | _ => ([], false)

/-- The response phase of `processVideo`: a non-ok status, an unparsable body
or a truthy `error` field throws into the `catch` (alert, no other change);
otherwise `displayGrids` runs and, when it completes, the documentation button
is enabled (`processedOk` is the ghost record of this success). -/
def processVideoResponse (st : State) (r : HttpResponse) : State × List Effect :=
  if r.ok = true then
    match r.jsonBody with
    | none => (st, [processErrorAlert])
    | some results =>
        if truthy (getF results "error") = true then (st, [processErrorAlert])
        else
          if (displayGrids results).2 = true then
            ({ st with gridContainer := (displayGrids results).1,
                       docEnabled := true, processedOk := true }, [])
          else ({ st with gridContainer := (displayGrids results).1 }, [processErrorAlert])
  else (st, [processErrorAlert])

/-- The alert shown by the `catch` block of `generateDocumentation`. -/
def docErrorAlert : Effect :=
  Effect.alert "Error generating documentation. Please check the console for details."

/-- The message paragraph written by `displayResults` when there is nothing to
iterate. -/
def noResultsMsg : String := "No results to display. Please try again."

/-- The `forEach` body of `displayResults`: one grid-plus-text block per
element, throwing (second component `false`) at the first nullish element. -/
def renderResultElems : List JsVal → List ResultNode × Bool
  | [] => ([], true)
  | r :: rs =>
      if notNullish r = true then
        let p := renderResultElems rs
        (ResultNode.item ("data:image/jpeg;base64," ++ jsToString (getF r "image"))
            ("Grid " ++ jsToString (getF r "grid_number"))
            (jsToString (getF r "documentation")) :: p.1, p.2)
      else ([], false)

/-- `displayResults`: clear the container; when the value is not an array or
is an empty array, render the no-results paragraph and return; otherwise
iterate the elements. -/
def displayResults (v : JsVal) : List ResultNode × Bool :=
  match v with
  | JsVal.arr [] => ([ResultNode.msg noResultsMsg], true)
  | JsVal.arr xs => renderResultElems xs
  | _ => ([ResultNode.msg noResultsMsg], true)

/-- The response phase of `generateDocumentation` in app.js: non-ok status or
unparsable body throws into the `catch` (alert); otherwise `displayResults`
runs on `results.grid_results` and `displayFinalSummary` on
`results.final_summary` (no `error`-field check exists in this variant). -/
def generateDocumentationResponse (st : State) (r : HttpResponse) : State × List Effect :=
  if r.ok = true then
    match r.jsonBody with
    | none => (st, [docErrorAlert])
    | some results =>
        if (displayResults (getF results "grid_results")).2 = true then
          ({ st with resultsContainer := (displayResults (getF results "grid_results")).1,
                     finalSummary := some (jsToString (getF results "final_summary")) }, [])
        else ({ st with resultsContainer := (displayResults (getF results "grid_results")).1 },
              [docErrorAlert])
  else (st, [docErrorAlert])

/-- User and network events driving the app.js client. -/
inductive Event where
  | startRec
  | dataChunk (c : Chunk)
  | stopRec
  | uploadFile (f : Option NamedFile)
  | clickProcess
  | processResponse (r : HttpResponse)
  | clickGenerateDoc
  | docResponse (r : HttpResponse)

/-- One event step of the app.js client; button-guarded clicks on disabled
controls are no-ops. -/
def step (st : State) (e : Event) : State × List Effect :=
  match e with
  | Event.startRec => startRecording st
  | Event.dataChunk c => (dataAvailable st c, [])
  | Event.stopRec => stopRecording st
  | Event.uploadFile f => handleVideoUpload st f
  | Event.clickProcess => if st.processEnabled = true then processVideo st else (st, [])
  | Event.processResponse r => processVideoResponse st r
  | Event.clickGenerateDoc =>
      if st.docEnabled = true then (st, [Effect.httpPost "/generate_documentation" none])
      else (st, [])
  | Event.docResponse r => generateDocumentationResponse st r

/-- The state component of a step. -/
def stepS (st : State) (e : Event) : State := (step st e).1

/-- Run a trace of events from the initial state. -/
def run (evs : List Event) : State := evs.foldl stepS initState

/-- The side condition of the provenance invariant: no file is selected while
a recording is active. -/
def uploadOk (st : State) : Event → Bool
  | Event.uploadFile _ => !st.recorderActive
  | _ => true

/-- `uploadOk` holds along the whole trace from `st`. -/
def okFrom : State → List Event → Bool
  | _, [] => true
  | st, e :: evs => uploadOk st e && okFrom (stepS st e) evs

end App

namespace PartZero

/-- Client state of the unnamed script variant (`src/unnamed/part_000`) with
the page markup of `index.html`: module variables (`recordedChunks`), the
`videoFile` input contents, the frames-per-second control value, the grid
container, the documentation output region, the download button state (and
the text its click handler would download), and the button enabled states.
The Generate Documentation button has no `disabled` attribute in the markup
and the script never disables it, so `genEnabled` starts `true` and no
transition changes it. -/
structure State where
  recordedChunks : List Chunk := []
  videoFileInput : Option NamedFile := none
  fpsValue : String := "4"
  gridContainer : List FrameNode := []
  documentationOutput : OutputContent := OutputContent.empty
  downloadVisible : Bool := false
  downloadContent : Option String := none
  startEnabled : Bool := true
  stopEnabled : Bool := false
  genEnabled : Bool := true
  recorderActive : Bool := false

/-- The initial state given by `index.html` and the module initialisers. -/
def initState : State := {}

/-- `startRecording` (unnamed script): start the recorder and flip the
start/stop buttons.  This variant has no `onstart` handler, so the chunk
buffer is NOT cleared here (it is cleared in `handleRecordingStop`). -/
def startRecording (st : State) : State × List Effect :=
  if st.startEnabled = true then
    ({ st with recorderActive := true, startEnabled := false, stopEnabled := true }, [])
  else (st, [])

/-- `stopRecording` plus the `handleRecordingStop` handler it triggers: no-op
unless a recorder is active; otherwise the chunks are finalised into a
`video/mp4` blob, the chunk buffer is cleared, and `displayRecordedVideo`
installs the blob as `screen-recording.mp4` in the `videoFile` input. -/
def stopRecording (st : State) : State × List Effect :=
  if st.recorderActive = true then
    ({ st with recorderActive := false,
               startEnabled := true, stopEnabled := false,
               recordedChunks := [],
               videoFileInput :=
                 some ⟨⟨st.recordedChunks, "video/mp4"⟩, "screen-recording.mp4"⟩ }, [])
  else (st, [])

/-- `handleVideoFileChange`: a selected file lands in the input (the preview
update has no bearing on the claims). -/
def handleVideoFileChange (st : State) (f : Option NamedFile) : State × List Effect :=
  match f with
  | none => (st, [])
  | some nf => ({ st with videoFileInput := some nf }, [])

/-- `processVideo` (unnamed script): there is no missing-video guard.  When a
file sits in the input it is posted; otherwise a blob is built from the
current chunk buffer (possibly empty) under the name `screen-recording.mp4`.
No `is_uploaded_video` field is sent. -/
def processVideo (st : State) : State × List Effect :=
  match st.videoFileInput with
  | some nf =>
      (st, [Effect.httpPost "/process_video"
        (some { video := some (nf.blob, nf.name),
                frames_per_second := st.fpsValue,
                is_uploaded_video := none })])
  | none =>
      (st, [Effect.httpPost "/process_video"
        (some { video := some (⟨st.recordedChunks, "video/mp4"⟩, "screen-recording.mp4"),
                frames_per_second := st.fpsValue,
                is_uploaded_video := none })])

/-- The alert shown by the `.catch` of the `processVideo` fetch chain. -/
def processCatchAlert : Effect :=
  Effect.alert "An error occurred while processing the video."

/-- One frame block built by `displayProcessedFrames` for element `f`. -/
def renderFrame (f : JsVal) : FrameNode :=
  { src := "data:image/jpeg;base64," ++ jsToString (getF f "image"),
    label := "Frame " ++ jsToString (getF f "frame_number") }

/-- The `forEach` body of `displayProcessedFrames`: render frames in order,
throwing (second component `false`) at the first nullish element. -/
def renderFrameElems : List JsVal → List FrameNode × Bool
  | [] => ([], true)
  | f :: fs =>
      if notNullish f = true then
        let p := renderFrameElems fs
        (renderFrame f :: p.1, p.2)
      else ([], false)

/-- `displayProcessedFrames`: clear `gridContainer` then append one frame
block per element; a non-array value makes `forEach` throw after the clear. -/
def displayProcessedFrames (v : JsVal) : List FrameNode × Bool :=
  match v with
  | JsVal.arr xs => renderFrameElems xs
  | _ => ([], false)

/-- The `.then(data => ...)` handler of the `processVideo` fetch chain.  Note
that `response.ok` is never consulted in this variant: any parsed JSON body
without a truthy `error` field is handled as success.  A truthy `error` field
alerts with the error text; otherwise `displayProcessedFrames(data.frames)`
runs, and then the success alert reads `data.video_info.grids_created` and
`data.video_info.extracted_frames` (throwing into the `.catch` when
`video_info` is nullish, with the frames left displayed). -/
def processVideoThen (st : State) (r : HttpResponse) : State × List Effect :=
  match r.jsonBody with
  | none => (st, [processCatchAlert])
  | some data =>
      if truthy (getF data "error") = true then
        (st, [Effect.alert (jsToString (getF data "error"))])
      else
        if (displayProcessedFrames (getF data "frames")).2 = true then
          if notNullish (getF data "video_info") = true then
            ({ st with gridContainer := (displayProcessedFrames (getF data "frames")).1 },
             [Effect.alert ("Video processed successfully. Created "
                ++ jsToString (getF (getF data "video_info") "grids_created")
                ++ " grid images from "
                ++ jsToString (getF (getF data "video_info") "extracted_frames")
                ++ " frames.")])
          else ({ st with gridContainer := (displayProcessedFrames (getF data "frames")).1 },
                [processCatchAlert])
        else ({ st with gridContainer := (displayProcessedFrames (getF data "frames")).1 },
              [processCatchAlert])

/-- The synchronous prefix of `generateDocumentation`: show the
`Generating documentation...` placeholder, hide the download button, and
issue the bodyless POST. -/
def generateDocumentation (st : State) : State × List Effect :=
  ({ st with documentationOutput := OutputContent.generating,
             downloadVisible := false },
   [Effect.httpPost "/generate_documentation" none])

/-- The response handlers of the `generateDocumentation` fetch chain.  A
non-ok status re-parses the body for an `error` message (falling back to the
status text) and throws; a parse failure or a truthy `error` field also
throws; every throw lands in the `.catch`, which writes the inline error
message into the output region.  On success the Markdown is rendered into the
output region, the download button is revealed and its click handler bound to
the raw documentation text. -/
def generateDocumentationThen (st : State) (r : HttpResponse) : State × List Effect :=
  if r.ok = true then
    match r.jsonBody with
    | none => ({ st with documentationOutput := OutputContent.errorText jsonParseErrorMsg }, [])
    | some data =>
        if truthy (getF data "error") = true then
          ({ st with documentationOutput :=
               OutputContent.errorText (jsToString (getF data "error")) }, [])
        else
          ({ st with
               documentationOutput :=
                 OutputContent.rendered (jsToString (getF data "documentation")),
               downloadVisible := true,
               downloadContent := some (jsToString (getF data "documentation")) }, [])
  else
    match r.jsonBody with
    | none => ({ st with documentationOutput := OutputContent.errorText jsonParseErrorMsg }, [])
    | some data =>
        if truthy (getF data "error") = true then
          ({ st with documentationOutput :=
               OutputContent.errorText (jsToString (getF data "error")) }, [])
        else
          ({ st with documentationOutput :=
               OutputContent.errorText ("HTTP error! status: " ++ toString r.status) }, [])

/-- `downloadMarkdown`: build a `text/markdown` blob from the documentation
text and click a synthetic link downloading it as `README.md`.  Purely
client-side: the only effect is the download. -/
def downloadMarkdown (content : String) : List Effect :=
  [Effect.download "README.md" content "text/markdown"]

end PartZero

/-- The provenance invariant of the app.js variant: while a recording is
active the upload flag has been reset (and the start button is disabled);
while idle the flag is set exactly when the current blob came from file
selection. -/
def App.provenanceInv (s : App.State) : Prop :=
  (s.recorderActive = true → s.isUploadedVideo = false ∧ s.startEnabled = false) ∧
  (s.recorderActive = false →
    (s.isUploadedVideo = true ↔ s.blobSource = some Source.uploaded))

/- Round-trip lemmas: printing then `parseInt` is the identity. -/

lemma digitChar_isDigit {d : Nat} (hd : d < 10) : isDigitChar (digitChar d) = true := by
  interval_cases d <;> decide

lemma digitVal_digitChar {d : Nat} (hd : d < 10) : digitVal (digitChar d) = d := by
  interval_cases d <;> decide

lemma parseDigitsAux_append (L1 L2 : List Char) (acc : Nat)
    (h : ∀ c ∈ L1, isDigitChar c = true) :
    parseDigitsAux acc (L1 ++ L2) = parseDigitsAux (parseDigitsAux acc L1) L2 := by
  induction L1 generalizing acc with
  | nil => simp [parseDigitsAux]
  | cons c cs ih =>
      have hc : isDigitChar c = true := h c (List.mem_cons_self c cs)
      simp only [List.cons_append, parseDigitsAux, hc, if_pos]
      exact ih _ (fun x hx => h x (List.mem_cons_of_mem c hx))

lemma natDecCharsF_digits {f n : Nat} :
    ∀ c ∈ natDecCharsF f n, isDigitChar c = true := by
  induction f generalizing n with
  | zero => simp [natDecCharsF]
  | succ f ih =>
      intro c hc
      simp only [natDecCharsF] at hc
      by_cases h : n < 10
      · rw [if_pos h] at hc
        simp at hc
        subst hc
        exact digitChar_isDigit h
      · rw [if_neg h] at hc
        rcases List.mem_append.mp hc with h1 | h1
        · exact ih c h1
        · simp at h1
          subst h1
          exact digitChar_isDigit (Nat.mod_lt _ (by omega))

lemma natDecCharsF_ne_nil {f n : Nat} (hf : 0 < f) : natDecCharsF f n ≠ [] := by
  cases f with
  | zero => omega
  | succ f =>
      simp only [natDecCharsF]
      by_cases h : n < 10
      · rw [if_pos h]; simp
      · rw [if_neg h]; simp

lemma parseDigitsAux_natDecCharsF {f : Nat} :
    ∀ n acc, n < f →
      parseDigitsAux acc (natDecCharsF f n) =
        acc * 10 ^ (natDecCharsF f n).length + n := by
  induction f with
  | zero => intro n acc h; omega
  | succ f ih =>
      intro n acc h
      by_cases h10 : n < 10
      · simp only [natDecCharsF, if_pos h10, parseDigitsAux,
          digitChar_isDigit h10, if_pos, digitVal_digitChar h10]
        simp [parseDigitsAux]
        ring
      · have hrec : n / 10 < f := by
          have h1 : n / 10 < n := Nat.div_lt_self (by omega) (by omega)
          omega
        simp only [natDecCharsF, if_neg h10]
        rw [parseDigitsAux_append _ _ _ (fun c hc => natDecCharsF_digits c hc)]
        rw [ih (n / 10) acc hrec]
        have hm : n % 10 < 10 := Nat.mod_lt _ (by omega)
        simp only [parseDigitsAux, digitChar_isDigit hm, if_pos, digitVal_digitChar hm]
        simp [List.length_append]
        have : n = 10 * (n / 10) + n % 10 := (Nat.div_add_mod n 10).symm
        ring_nf
        omega

lemma isDigitChar_ne_space {c : Char} (h : isDigitChar c = true) : (c == ' ') = false := by
  rcases hb : c == ' ' with _ | _
  · rfl
  · exfalso
    have : c = ' ' := by exact eq_of_beq hb
    subst this
    simp [isDigitChar] at h

lemma isDigitChar_ne_minus {c : Char} (h : isDigitChar c = true) : c ≠ '-' := by
  intro he; subst he; simp [isDigitChar] at h

lemma isDigitChar_ne_plus {c : Char} (h : isDigitChar c = true) : c ≠ '+' := by
  intro he; subst he; simp [isDigitChar] at h

lemma jsParseInt_mk_digits (cs : List Char) (hne : cs ≠ [])
    (hd : ∀ c ∈ cs, isDigitChar c = true) :
    jsParseInt (String.mk cs) = some ((parseDigitsAux 0 cs : Nat) : Int) := by
  cases cs with
  | nil => exact absurd rfl hne
  | cons c rest =>
      have hc : isDigitChar c = true := hd c (List.mem_cons_self c rest)
      show jsParseInt ⟨c :: rest⟩ = _
      unfold jsParseInt
      simp only [String.data]
      rw [List.dropWhile_cons, isDigitChar_ne_space hc]
      simp only [Bool.false_eq_true, if_false]
      rw [if_neg (isDigitChar_ne_minus hc), if_neg (isDigitChar_ne_plus hc), if_pos hc]

theorem jsParseInt_natDecRepr (n : Nat) : jsParseInt (natDecRepr n) = some (n : Int) := by
  unfold natDecRepr
  rw [jsParseInt_mk_digits _ (natDecCharsF_ne_nil (by omega))
      (fun c hc => natDecCharsF_digits c hc)]
  rw [parseDigitsAux_natDecCharsF n 0 (by omega)]
  simp

theorem jsParseInt_intDecRepr (v : Int) : jsParseInt (intDecRepr v) = some v := by
  cases v with
  | ofNat m => exact jsParseInt_natDecRepr m
  | negSucc m =>
      unfold intDecRepr
      unfold jsParseInt
      simp only [String.data]
      rw [List.dropWhile_cons]
      have : (('-' : Char) == ' ') = false := by decide
      rw [this]
      simp only [Bool.false_eq_true, if_false, if_pos rfl]
      have hne : natDecCharsF (m + 2) (m + 1) ≠ [] := natDecCharsF_ne_nil (by omega)
      have hlead : digitsLead (natDecCharsF (m + 2) (m + 1)) = true := by
        rcases hcs : natDecCharsF (m + 2) (m + 1) with _ | ⟨c, rest⟩
        · exact absurd hcs hne
        · simp only [digitsLead]
          exact natDecCharsF_digits c (hcs ▸ List.mem_cons_self c rest)
      rw [if_pos hlead]
      rw [parseDigitsAux_natDecCharsF (m + 1) 0 (by omega)]
      simp [Int.negSucc_eq]

lemma jsToString_str (s : String) : jsToString (JsVal.str s) = s := rfl

/- Claim theorems. -/

/-- C3: for every integer frames-per-second input value, the client-side
validation (`validateFramesPerSecond`, which backs the input control's
validity state) reports a valid state if and only if the value lies in the
inclusive range [1, 30]; every integer value outside that range makes the
control report an invalid state. -/
theorem framesPerSecond_validation_iff (v : Int) :
    framesPerSecondAccepted (intDecRepr v) = true ↔ 1 ≤ v ∧ v ≤ 30 := by
  simp only [framesPerSecondAccepted, validateFramesPerSecond, jsParseInt_intDecRepr]
  by_cases h : v < 1 ∨ v > 30
  · rw [if_pos h]
    constructor
    · intro hb
      exact absurd hb (by decide)
    · intro hv
      omega
  · rw [if_neg h]
    constructor
    · intro _
      omega
    · intro _
      decide

/-- Witness for C3: the default value 4 is accepted. -/
theorem framesPerSecond_validation_iff_witness :
    framesPerSecondAccepted (intDecRepr 4) = true :=
  (framesPerSecond_validation_iff 4).mpr (by decide)

/-- C10: `displayResults` (app.js) is safe on arbitrary `grid_results`
values: whenever the value is not an array, or is an empty array, it renders
the visible no-results paragraph and returns normally (second component
`true` means no exception) instead of iterating the value. -/
theorem displayResults_non_array_safe (v : JsVal)
    (h : isArr v = false ∨ v = JsVal.arr []) :
    App.displayResults v = ([ResultNode.msg App.noResultsMsg], true) := by
  rcases h with h | h
  · cases v <;> simp_all [App.displayResults, isArr]
  · subst h
    rfl

/-- Witness for C10: a missing `grid_results` field (`undefined`) renders the
no-results paragraph. -/
theorem displayResults_non_array_safe_witness :
    App.displayResults JsVal.undef = ([ResultNode.msg App.noResultsMsg], true) :=
  displayResults_non_array_safe JsVal.undef (Or.inl rfl)

/-- C8: for any documentation text returned by the server, the unnamed
script binds the raw Markdown text to the download button and
`downloadMarkdown` produces exactly one download effect with filename
`README.md`, content equal to the raw text and MIME `text/markdown` — in
particular no HTTP request is issued by the export. -/
theorem downloadMarkdown_readme (st : PartZero.State) (r : HttpResponse)
    (b : JsVal) (d : String)
    (hok : r.ok = true) (hb : r.jsonBody = some b)
    (herr : truthy (getF b "error") = false)
    (hdoc : getF b "documentation" = JsVal.str d) :
    (PartZero.generateDocumentationThen st r).1.downloadContent = some d ∧
    (PartZero.generateDocumentationThen st r).1.downloadVisible = true ∧
    PartZero.downloadMarkdown d = [Effect.download "README.md" d "text/markdown"] := by
  unfold PartZero.generateDocumentationThen
  rw [hok]
  simp only [hb, herr, hdoc, jsToString_str, if_true]
  simp [PartZero.downloadMarkdown]

/-- Witness for C8: a concrete successful documentation response. -/
theorem downloadMarkdown_readme_witness :
    (PartZero.generateDocumentationThen PartZero.initState
        ⟨true, 200, some (JsVal.obj [("documentation", JsVal.str "# Doc")])⟩).1.downloadContent
      = some "# Doc" ∧
    PartZero.downloadMarkdown "# Doc" =
      [Effect.download "README.md" "# Doc" "text/markdown"] := by
  have h := downloadMarkdown_readme PartZero.initState
    ⟨true, 200, some (JsVal.obj [("documentation", JsVal.str "# Doc")])⟩
    (JsVal.obj [("documentation", JsVal.str "# Doc")]) "# Doc"
    rfl rfl rfl rfl
  exact ⟨h.1, h.2.2⟩

/- Rendering helper lemmas. -/

lemma renderGridElems_good (xs : List JsVal) :
    ∀ i, goodElems xs = true →
      App.renderGridElems i xs =
        ((xs.enumFrom i).map (fun p => App.renderGrid p.1 p.2), true) := by
  induction xs with
  | nil => intro i _; rfl
  | cons g gs ih =>
      intro i hg
      simp only [goodElems, List.all_cons, Bool.and_eq_true] at hg
      simp only [App.renderGridElems, hg.1, if_pos, List.enumFrom, List.map_cons]
      rw [ih (i + 1) hg.2]

lemma renderFrameElems_good (ys : List JsVal) (hg : goodElems ys = true) :
    PartZero.renderFrameElems ys = (ys.map PartZero.renderFrame, true) := by
  induction ys with
  | nil => rfl
  | cons f fs ih =>
      simp only [goodElems, List.all_cons, Bool.and_eq_true] at hg
      simp only [PartZero.renderFrameElems, hg.1, if_pos, List.map_cons]
      rw [ih hg.2]

lemma processVideoResponse_success (st : App.State) (r : HttpResponse) (xs : List JsVal)
    (hok : r.ok = true) (hb : r.jsonBody = some (JsVal.arr xs)) (hg : goodElems xs = true) :
    App.processVideoResponse st r =
      ({ st with gridContainer := (xs.enumFrom 0).map (fun p => App.renderGrid p.1 p.2),
                 docEnabled := true, processedOk := true }, []) := by
  unfold App.processVideoResponse
  rw [hok]
  simp only [hb, if_true]
  have herr : truthy (getF (JsVal.arr xs) "error") = true ↔ False := by
    simp [getF, truthy]
  simp only [getF, truthy, App.displayGrids]
  rw [renderGridElems_good xs 0 hg]
  simp

lemma processVideoThen_frames (st : PartZero.State) (r : HttpResponse)
    (b : JsVal) (ys : List JsVal)
    (hb : r.jsonBody = some b) (herr : truthy (getF b "error") = false)
    (hf : getF b "frames" = JsVal.arr ys) (hg : goodElems ys = true) :
    (PartZero.processVideoThen st r).1.gridContainer = ys.map PartZero.renderFrame := by
  unfold PartZero.processVideoThen
  simp only [hb, herr, hf, Bool.false_eq_true, if_false, PartZero.displayProcessedFrames]
  rw [renderFrameElems_good ys hg]
  split
  · split <;> rfl
  · rfl

/-- C1 (amended): in the app.js variant, a non-success HTTP status or a
truthy `error` field in the JSON body makes `processVideo` surface a failure
alert and leave the state (in particular the grid container) unchanged, and a
success response carrying a grid array is rendered into the grid container in
insertion order.  In the unnamed script variant the same holds for the
`error`-field condition, but the HTTP status is never checked: a non-success
response whose JSON body lacks an `error` field is handled as success.  No
branch escapes the handlers (the page does not crash). -/
theorem processVideo_response_handling :
    (∀ (st : App.State) (r : HttpResponse), r.ok = false →
        App.processVideoResponse st r = (st, [App.processErrorAlert])) ∧
    (∀ (st : App.State) (r : HttpResponse) (b : JsVal), r.jsonBody = some b →
        truthy (getF b "error") = true →
        App.processVideoResponse st r = (st, [App.processErrorAlert])) ∧
    (∀ (st : App.State) (r : HttpResponse) (xs : List JsVal), r.ok = true →
        r.jsonBody = some (JsVal.arr xs) → goodElems xs = true →
        App.processVideoResponse st r =
          ({ st with gridContainer := (xs.enumFrom 0).map (fun p => App.renderGrid p.1 p.2),
                     docEnabled := true, processedOk := true }, [])) ∧
    (∀ (st : PartZero.State) (r : HttpResponse) (b : JsVal), r.jsonBody = some b →
        truthy (getF b "error") = true →
        PartZero.processVideoThen st r =
          (st, [Effect.alert (jsToString (getF b "error"))])) := by
  refine ⟨?_, ?_, ?_, ?_⟩
  · intro st r hok
    unfold App.processVideoResponse
    rw [hok]
    rfl
  · intro st r b hb herr
    unfold App.processVideoResponse
    rcases hok : r.ok with _ | _
    · rfl
    · simp [hb, herr]
  · intro st r xs hok hb hg
    exact processVideoResponse_success st r xs hok hb hg
  · intro st r b hb herr
    unfold PartZero.processVideoThen
    simp [hb, herr]

/-- Witness for C1: a concrete non-success response is turned into the
failure alert with no state change in the app.js variant. -/
theorem processVideo_response_handling_witness :
    App.processVideoResponse App.initState ⟨false, 500, none⟩ =
      (App.initState, [App.processErrorAlert]) :=
  processVideo_response_handling.1 App.initState ⟨false, 500, none⟩ rfl

/-- C1 counterexample: the unnamed script never checks `response.ok`; a
status-500 response whose body has a `frames` array and no `error` field gets
its frame rendered into the grid container, so grid images ARE displayed for
a non-success response. -/
theorem processVideo_response_handling_cex :
    (PartZero.processVideoThen PartZero.initState
        ⟨false, 500,
         some (JsVal.obj
           [("frames",
             JsVal.arr [JsVal.obj [("image", JsVal.str "AAA"), ("frame_number", JsVal.num 1)]]),
            ("video_info",
             JsVal.obj [("grids_created", JsVal.num 1),
                        ("extracted_frames", JsVal.num 4)])])⟩).1.gridContainer
      = [{ src := "data:image/jpeg;base64,AAA", label := "Frame 1" }] := by
  rfl

/-- C2: rendering a second successful response fully replaces the previously
displayed grid set: after the second render the grid container holds exactly
the grids of the second response, whatever the first response was, in both
variants (`displayGrids` resp. `displayProcessedFrames` clear the container
before appending). -/
theorem displayGrids_replaces :
    (∀ (st : App.State) (r1 r2 : HttpResponse) (xs : List JsVal),
        r2.ok = true → r2.jsonBody = some (JsVal.arr xs) → goodElems xs = true →
        (App.processVideoResponse (App.processVideoResponse st r1).1 r2).1.gridContainer
          = (xs.enumFrom 0).map (fun p => App.renderGrid p.1 p.2)) ∧
    (∀ (st : PartZero.State) (r1 r2 : HttpResponse) (b2 : JsVal) (ys : List JsVal),
        r2.jsonBody = some b2 → truthy (getF b2 "error") = false →
        getF b2 "frames" = JsVal.arr ys → goodElems ys = true →
        (PartZero.processVideoThen (PartZero.processVideoThen st r1).1 r2).1.gridContainer
          = ys.map PartZero.renderFrame) := by
  constructor
  · intro st r1 r2 xs hok hb hg
    rw [processVideoResponse_success _ r2 xs hok hb hg]
  · intro st r1 r2 b2 ys hb herr hf hg
    exact processVideoThen_frames _ r2 b2 ys hb herr hf hg

/-- Witness for C2: two successive app.js responses; the container holds
exactly the second grid. -/
theorem displayGrids_replaces_witness :
    (App.processVideoResponse
        (App.processVideoResponse App.initState
          ⟨true, 200, some (JsVal.arr [JsVal.obj [("image", JsVal.str "X")]])⟩).1
        ⟨true, 200, some (JsVal.arr [JsVal.obj [("image", JsVal.str "Y")]])⟩).1.gridContainer
      = ([JsVal.obj [("image", JsVal.str "Y")]].enumFrom 0).map
          (fun p => App.renderGrid p.1 p.2) :=
  displayGrids_replaces.1 App.initState
    ⟨true, 200, some (JsVal.arr [JsVal.obj [("image", JsVal.str "X")]])⟩
    ⟨true, 200, some (JsVal.arr [JsVal.obj [("image", JsVal.str "Y")]])⟩
    [JsVal.obj [("image", JsVal.str "Y")]] rfl rfl rfl

/-- C4 (amended): in the app.js variant, requesting processing with no video
blob present alerts, issues no HTTP request and leaves the state unchanged;
the unnamed script variant has no such guard and instead posts a blob built
from the (possibly empty) chunk buffer, with no alert. -/
theorem processVideo_missing_video :
    (∀ st : App.State, st.videoBlob = none →
        App.processVideo st =
          (st, [Effect.alert "Please record or upload a video before processing."])) ∧
    (∀ st : PartZero.State, st.videoFileInput = none →
        PartZero.processVideo st =
          (st, [Effect.httpPost "/process_video"
            (some { video := some (⟨st.recordedChunks, "video/mp4"⟩, "screen-recording.mp4"),
                    frames_per_second := st.fpsValue,
                    is_uploaded_video := none })])) := by
  constructor
  · intro st h
    unfold App.processVideo
    rw [h]
  · intro st h
    unfold PartZero.processVideo
    rw [h]

/-- Witness for C4: the initial app.js state has no video; processing alerts
and changes nothing. -/
theorem processVideo_missing_video_witness :
    App.processVideo App.initState =
      (App.initState, [Effect.alert "Please record or upload a video before processing."]) :=
  processVideo_missing_video.1 App.initState rfl

/-- C4 counterexample: in the unnamed script, requesting processing from the
initial state (no file selected, no recording made) issues an HTTP request
carrying an empty `video/mp4` blob and shows no alert, contradicting the
claim that no request is issued and a blocking alert appears. -/
theorem processVideo_missing_video_cex :
    PartZero.processVideo PartZero.initState =
      (PartZero.initState,
       [Effect.httpPost "/process_video"
         (some { video := some (⟨[], "video/mp4"⟩, "screen-recording.mp4"),
                 frames_per_second := "4", is_uploaded_video := none })]) := rfl

/-- C5 (amended): in both variants `stopCapture` is a no-op when no recording
session is active; otherwise it finalises the buffered chunks into a single
blob with the variant's fixed MIME type and flips the start/stop affordances
back.  The unnamed script clears the chunk buffer at this point; the app.js
variant retains the chunks (they are cleared only when the next recording
starts). -/
theorem stopRecording_behaviour :
    (∀ st : App.State, st.recorderActive = false → App.stopRecording st = (st, [])) ∧
    (∀ st : PartZero.State, st.recorderActive = false → PartZero.stopRecording st = (st, [])) ∧
    (∀ st : App.State, st.recorderActive = true →
        (App.stopRecording st).1.videoBlob = some ⟨st.recordedChunks, "video/webm"⟩ ∧
        (App.stopRecording st).1.recordedChunks = st.recordedChunks ∧
        (App.stopRecording st).1.startEnabled = true ∧
        (App.stopRecording st).1.stopEnabled = false ∧
        (App.stopRecording st).1.recorderActive = false) ∧
    (∀ st : PartZero.State, st.recorderActive = true →
        (PartZero.stopRecording st).1.videoFileInput =
          some ⟨⟨st.recordedChunks, "video/mp4"⟩, "screen-recording.mp4"⟩ ∧
        (PartZero.stopRecording st).1.recordedChunks = [] ∧
        (PartZero.stopRecording st).1.startEnabled = true ∧
        (PartZero.stopRecording st).1.stopEnabled = false) ∧
    (∀ st : App.State, st.startEnabled = true →
        (App.startRecording st).1.recordedChunks = []) := by
  refine ⟨?_, ?_, ?_, ?_, ?_⟩
  · intro st h
    unfold App.stopRecording
    rw [h]
    rfl
  · intro st h
    unfold PartZero.stopRecording
    rw [h]
    rfl
  · intro st h
    unfold App.stopRecording
    rw [h]
    exact ⟨rfl, rfl, rfl, rfl, rfl⟩
  · intro st h
    unfold PartZero.stopRecording
    rw [h]
    exact ⟨rfl, rfl, rfl, rfl⟩
  · intro st h
    unfold App.startRecording
    rw [h]
    rfl

/-- Witness for C5: stopping with no active recording in the initial app.js
state changes nothing. -/
theorem stopRecording_behaviour_witness :
    App.stopRecording App.initState = (App.initState, []) :=
  stopRecording_behaviour.1 App.initState rfl

/-- C5 counterexample: in the app.js variant, stopping an active recording
with one buffered chunk leaves the chunk in the buffer — the chunk buffer is
NOT cleared by `stopRecording`/`onstop` (app.js clears it only in
`onstart`). -/
theorem stopRecording_behaviour_cex :
    (App.stopRecording { App.initState with
                         recorderActive := true, startEnabled := false,
                         stopEnabled := true,
                         recordedChunks := [⟨[7]⟩] }).1.recordedChunks = [⟨[7]⟩] ∧
    (App.stopRecording { App.initState with
                         recorderActive := true, startEnabled := false,
                         stopEnabled := true,
                         recordedChunks := [⟨[7]⟩] }).1.recordedChunks ≠ [] := by
  exact ⟨rfl, by decide⟩

/- Helper lemmas for the documentation response handler of the unnamed
script. -/

lemma genDocThen_notOk (st : PartZero.State) (r : HttpResponse) (h : r.ok = false) :
    ∃ m, (PartZero.generateDocumentationThen st r).1.documentationOutput
          = OutputContent.errorText m := by
  unfold PartZero.generateDocumentationThen
  rw [h]
  rcases hb : r.jsonBody with _ | b
  · exact ⟨jsonParseErrorMsg, rfl⟩
  · by_cases he : truthy (getF b "error") = true
    · exact ⟨jsToString (getF b "error"), by simp [he]⟩
    · exact ⟨"HTTP error! status: " ++ toString r.status, by simp [he]⟩

lemma genDocThen_noJson (st : PartZero.State) (r : HttpResponse) (h : r.jsonBody = none) :
    (PartZero.generateDocumentationThen st r).1.documentationOutput
      = OutputContent.errorText jsonParseErrorMsg := by
  unfold PartZero.generateDocumentationThen
  rcases hok : r.ok with _ | _ <;> simp [h]

lemma genDocThen_errorField (st : PartZero.State) (r : HttpResponse) (b : JsVal)
    (hb : r.jsonBody = some b) (he : truthy (getF b "error") = true) :
    (PartZero.generateDocumentationThen st r).1.documentationOutput
      = OutputContent.errorText (jsToString (getF b "error")) := by
  unfold PartZero.generateDocumentationThen
  rcases hok : r.ok with _ | _ <;> simp [hb, he]

lemma genDocThen_settled (st : PartZero.State) (r : HttpResponse) :
    (∃ m, (PartZero.generateDocumentationThen st r).1.documentationOutput
            = OutputContent.errorText m) ∨
    (∃ d, (PartZero.generateDocumentationThen st r).1.documentationOutput
            = OutputContent.rendered d) := by
  rcases hok : r.ok with _ | _
  · exact Or.inl (genDocThen_notOk st r hok)
  · rcases hb : r.jsonBody with _ | b
    · exact Or.inl ⟨jsonParseErrorMsg, genDocThen_noJson st r hb⟩
    · by_cases he : truthy (getF b "error") = true
      · exact Or.inl ⟨_, genDocThen_errorField st r b hb he⟩
      · refine Or.inr ⟨jsToString (getF b "documentation"), ?_⟩
        unfold PartZero.generateDocumentationThen
        rw [hok]
        simp [hb, he]

/-- C6 (amended): in the unnamed script variant, every failing documentation
request — non-success status, unparsable body, or an `error` field in the
body — ends with an inline error message in the output region, and after any
response settles the output region no longer shows the
`Generating documentation...` placeholder.  The app.js variant instead
surfaces a failing documentation request through a blocking alert, leaving
its containers unchanged (it has no placeholder). -/
theorem generateDocumentation_error_display :
    (∀ (st : PartZero.State) (r : HttpResponse),
        ((r.ok = false ∨ r.jsonBody = none ∨
            (∃ b, r.jsonBody = some b ∧ truthy (getF b "error") = true)) →
          ∃ m, (PartZero.generateDocumentationThen
                  (PartZero.generateDocumentation st).1 r).1.documentationOutput
                = OutputContent.errorText m) ∧
        (PartZero.generateDocumentationThen
            (PartZero.generateDocumentation st).1 r).1.documentationOutput
          ≠ OutputContent.generating) ∧
    (∀ (st : App.State) (r : HttpResponse), r.ok = false →
        App.generateDocumentationResponse st r = (st, [App.docErrorAlert])) := by
  constructor
  · intro st r
    constructor
    · rintro (h | h | ⟨b, hb, he⟩)
      · exact genDocThen_notOk _ r h
      · exact ⟨jsonParseErrorMsg, genDocThen_noJson _ r h⟩
      · exact ⟨_, genDocThen_errorField _ r b hb he⟩
    · rcases genDocThen_settled (PartZero.generateDocumentation st).1 r with ⟨m, hm⟩ | ⟨d, hd⟩
      · rw [hm]
        intro hcon
        cases hcon
      · rw [hd]
        intro hcon
        cases hcon
  · intro st r h
    unfold App.generateDocumentationResponse
    rw [h]
    rfl

/-- Witness for C6: a concrete failing response leaves an inline error
message in the unnamed script's output region. -/
theorem generateDocumentation_error_display_witness :
    ∃ m, (PartZero.generateDocumentationThen
            (PartZero.generateDocumentation PartZero.initState).1
            ⟨false, 404, none⟩).1.documentationOutput
          = OutputContent.errorText m :=
  (generateDocumentation_error_display.1 PartZero.initState ⟨false, 404, none⟩).1
    (Or.inl rfl)

/-- C6 counterexample: in the app.js variant a failing documentation request
(HTTP 500) produces a blocking alert and leaves the client state — including
every output container — unchanged, so no error message is displayed inline,
contradicting the claim for this variant. -/
theorem generateDocumentation_error_display_cex :
    App.generateDocumentationResponse App.initState ⟨false, 500, none⟩ =
      (App.initState, [App.docErrorAlert]) := rfl

/- Trace lemmas for the app.js event system. -/

lemma processVideo_fst (s : App.State) : (App.processVideo s).1 = s := by
  unfold App.processVideo
  rcases hv : s.videoBlob with _ | b <;> simp [hv]

lemma step_doc_inv (s : App.State) (e : App.Event)
    (h : s.docEnabled = true → s.processedOk = true) :
    (App.stepS s e).docEnabled = true → (App.stepS s e).processedOk = true := by
  cases e with
  | startRec =>
      simp only [App.stepS, App.step, App.startRecording]
      split <;> exact h
  | dataChunk c =>
      simp only [App.stepS, App.step, App.dataAvailable]
      split <;> exact h
  | stopRec =>
      simp only [App.stepS, App.step, App.stopRecording]
      split <;> exact h
  | uploadFile f =>
      simp only [App.stepS, App.step, App.handleVideoUpload]
      cases f <;> exact h
  | clickProcess =>
      simp only [App.stepS, App.step]
      split
      · rw [processVideo_fst]
        exact h
      · exact h
  | processResponse r =>
      simp only [App.stepS, App.step, App.processVideoResponse]
      repeat' split
      all_goals first | (intro _; rfl) | exact h
  | clickGenerateDoc =>
      simp only [App.stepS, App.step]
      split <;> exact h
  | docResponse r =>
      simp only [App.stepS, App.step, App.generateDocumentationResponse]
      repeat' split
      all_goals exact h

lemma run_doc_inv : ∀ (evs : List App.Event) (s : App.State),
    (s.docEnabled = true → s.processedOk = true) →
    ((evs.foldl App.stepS s).docEnabled = true →
      (evs.foldl App.stepS s).processedOk = true) := by
  intro evs
  induction evs with
  | nil => intro s h; exact h
  | cons e evs ih =>
      intro s h
      exact ih _ (step_doc_inv s e h)

/-- C7 (amended): in the app.js variant (whose page, per the spec, loads with
the documentation control disabled), the documentation affordance is enabled
only after a successful `/process_video` response has been handled: along
every event trace, `docEnabled` implies `processedOk`.  The unnamed script
variant does not enforce this — its Generate Documentation button is always
enabled (see the counterexample). -/
theorem generateDocumentation_affordance (evs : List App.Event) :
    (App.run evs).docEnabled = true → (App.run evs).processedOk = true :=
  run_doc_inv evs App.initState (fun h => absurd h (by decide))

/-- Witness for C7: a trace with a successful processing response enables the
affordance, and a successful response was indeed received. -/
theorem generateDocumentation_affordance_witness :
    (App.run [App.Event.uploadFile (some ⟨⟨[⟨[1]⟩], "video/mp4"⟩, "a.mp4"⟩),
              App.Event.clickProcess,
              App.Event.processResponse
                ⟨true, 200, some (JsVal.arr [JsVal.obj [("image", JsVal.str "A")]])⟩]).docEnabled
        = true ∧
    (App.run [App.Event.uploadFile (some ⟨⟨[⟨[1]⟩], "video/mp4"⟩, "a.mp4"⟩),
              App.Event.clickProcess,
              App.Event.processResponse
                ⟨true, 200, some (JsVal.arr [JsVal.obj [("image", JsVal.str "A")]])⟩]).processedOk
        = true :=
  ⟨rfl,
   generateDocumentation_affordance
     [App.Event.uploadFile (some ⟨⟨[⟨[1]⟩], "video/mp4"⟩, "a.mp4"⟩),
      App.Event.clickProcess,
      App.Event.processResponse
        ⟨true, 200, some (JsVal.arr [JsVal.obj [("image", JsVal.str "A")]])⟩] rfl⟩

/-- C7 counterexample: the unnamed script variant starts (per `index.html`)
with an empty grid container and an enabled Generate Documentation button,
and clicking the button issues the documentation request — the user can
trigger documentation generation although no successful processing response
was ever received. -/
theorem generateDocumentation_affordance_cex :
    PartZero.initState.gridContainer = [] ∧
    PartZero.initState.genEnabled = true ∧
    (PartZero.generateDocumentation PartZero.initState).2 =
      [Effect.httpPost "/generate_documentation" none] :=
  ⟨rfl, rfl, rfl⟩

lemma step_provenance (s : App.State) (e : App.Event)
    (hup : App.uploadOk s e = true) (h : App.provenanceInv s) :
    App.provenanceInv (App.stepS s e) := by
  obtain ⟨h1, h2⟩ := h
  cases e with
  | startRec =>
      simp only [App.stepS, App.step, App.startRecording]
      split
      · constructor
        · intro _
          exact ⟨rfl, rfl⟩
        · intro hc
          simp at hc
      · exact ⟨h1, h2⟩
  | dataChunk c =>
      simp only [App.stepS, App.step, App.dataAvailable]
      split <;> exact ⟨h1, h2⟩
  | stopRec =>
      simp only [App.stepS, App.step, App.stopRecording]
      by_cases hs : s.recorderActive = true
      · rw [if_pos hs]
        obtain ⟨hflag, _⟩ := h1 hs
        constructor
        · intro hc
          simp at hc
        · intro _
          show s.isUploadedVideo = true ↔ some Source.recorded = some Source.uploaded
          rw [hflag]
          constructor
          · intro hc
            simp at hc
          · intro hc
            simp at hc
      · rw [if_neg hs]
        exact ⟨h1, h2⟩
  | uploadFile f =>
      have hrec : s.recorderActive = false := by
        simpa [App.uploadOk] using hup
      cases f with
      | none =>
          simp only [App.stepS, App.step, App.handleVideoUpload]
          exact ⟨h1, h2⟩
      | some nf =>
          simp only [App.stepS, App.step, App.handleVideoUpload]
          constructor
          · intro hc
            rw [hrec] at hc
            simp at hc
          · intro _
            simp
  | clickProcess =>
      simp only [App.stepS, App.step]
      split
      · rw [processVideo_fst]
        exact ⟨h1, h2⟩
      · exact ⟨h1, h2⟩
  | processResponse r =>
      simp only [App.stepS, App.step, App.processVideoResponse]
      repeat' split
      all_goals exact ⟨h1, h2⟩
  | clickGenerateDoc =>
      simp only [App.stepS, App.step]
      split <;> exact ⟨h1, h2⟩
  | docResponse r =>
      simp only [App.stepS, App.step, App.generateDocumentationResponse]
      repeat' split
      all_goals exact ⟨h1, h2⟩

lemma run_provenance : ∀ (evs : List App.Event) (s : App.State),
    App.okFrom s evs = true → App.provenanceInv s →
    App.provenanceInv (evs.foldl App.stepS s) := by
  intro evs
  induction evs with
  | nil => intro s _ h; exact h
  | cons e evs ih =>
      intro s hok h
      simp only [App.okFrom, Bool.and_eq_true] at hok
      exact ih _ hok.2 (step_provenance s e hok.1 h)

lemma initState_provenance : App.provenanceInv App.initState := by
  constructor
  · intro hc
    simp [App.initState] at hc
  · intro _
    simp [App.initState]

/-- C9 (amended): along every app.js event trace in which no file is selected
while a recording is active, whenever no recording is in progress the
`is_uploaded_video` flag equals the provenance of the current video blob, and
a processing request submitted from such a state carries exactly that flag
(so it reports the source correctly).  Without these side conditions the flag
can misreport: see the counterexample, where processing is requested during a
recording that started after an upload. -/
theorem isUploadedVideo_provenance (evs : List App.Event)
    (hok : App.okFrom App.initState evs = true)
    (hidle : (App.run evs).recorderActive = false) :
    ((App.run evs).isUploadedVideo = true ↔
      (App.run evs).blobSource = some Source.uploaded) ∧
    (∀ b, (App.run evs).videoBlob = some b → (App.run evs).processEnabled = true →
      (App.step (App.run evs) App.Event.clickProcess).2 =
        [Effect.httpPost "/process_video"
          (some { video := some (b, "video.webm"),
                  frames_per_second :=
                    if (App.run evs).fpsValue = "" then "4" else (App.run evs).fpsValue,
                  is_uploaded_video := some (App.run evs).isUploadedVideo })]) := by
  constructor
  · exact (run_provenance evs App.initState hok initState_provenance).2 hidle
  · intro b hb hpe
    simp only [App.step, hpe, if_true, App.processVideo, hb]

/-- Witness for C9: after a single file-selection event the flag is set and
the blob provenance is `uploaded`. -/
theorem isUploadedVideo_provenance_witness :
    (App.run [App.Event.uploadFile (some ⟨⟨[⟨[2]⟩], "video/mp4"⟩, "b.mp4"⟩)]).isUploadedVideo
        = true ∧
    (App.run [App.Event.uploadFile (some ⟨⟨[⟨[2]⟩], "video/mp4"⟩, "b.mp4"⟩)]).blobSource
        = some Source.uploaded :=
  ⟨rfl,
   (isUploadedVideo_provenance
      [App.Event.uploadFile (some ⟨⟨[⟨[2]⟩], "video/mp4"⟩, "b.mp4"⟩)] rfl rfl).1.mp rfl⟩

/-- C9 counterexample: select a file, then start a recording, then request
processing while the recording is still active.  The current blob is still
the uploaded file (`blobSource = uploaded`), yet the submitted form carries
`is_uploaded_video = false` — the flag misreports the source of the submitted
blob, refuting the claim that it always equals the blob's provenance. -/
theorem isUploadedVideo_provenance_cex :
    (App.run [App.Event.uploadFile (some ⟨⟨[⟨[3]⟩], "video/mp4"⟩, "c.mp4"⟩),
              App.Event.startRec]).blobSource = some Source.uploaded ∧
    (App.step (App.run [App.Event.uploadFile (some ⟨⟨[⟨[3]⟩], "video/mp4"⟩, "c.mp4"⟩),
                        App.Event.startRec]) App.Event.clickProcess).2 =
      [Effect.httpPost "/process_video"
        (some { video := some (⟨[⟨[3]⟩], "video/mp4"⟩, "video.webm"),
                frames_per_second := "4", is_uploaded_video := some false })] :=
  ⟨rfl, rfl⟩
